import Mathlib

/-!
Verification development for the gemini3d data layer (pygemini).

The Python source is shallowly embedded: numpy n-dimensional arrays become a
shape together with a total index function over rational values (the float32
casts performed on write are abstracted as exact, so every statement about
array contents is up to float32 rounding), HDF5 containers become structures
holding the datasets the readers and writers touch, fallible readers return
Except values, and the timestamp arithmetic of the frame resolver is carried
out in exact integer microseconds, which is precisely the internal
representation of Python datetime/timedelta values.
-/

namespace PyGemini

/-- A numpy n-dimensional array: a shape and a total index function.
Indexing is by a list of coordinates; out-of-bounds reads are harmless
defaults and never observed through well-shaped access. -/
structure NDArray (α : Type) where
  shape : List Nat
  data : List Nat → α

/-- numpy ndarray.ndim: the number of axes. -/
def NDArray.ndim {α : Type} (a : NDArray α) : Nat := a.shape.length

/-- numpy ndarray.size: the total number of elements. -/
def NDArray.size {α : Type} (a : NDArray α) : Nat := a.shape.prod

/-- All in-bounds index tuples of a shape, enumerated in row-major order. -/
def indicesOf : List Nat → List (List Nat)
  | [] => [[]]
  | d :: ds => (List.range d).flatMap (fun i => (indicesOf ds).map (fun tl => i :: tl))

/-- The row-major flattening of an array's in-bounds contents. -/
def NDArray.flat {α : Type} (a : NDArray α) : List α := (indicesOf a.shape).map a.data

/-- Extensional equality of arrays: same shape and same in-bounds contents. -/
def aeq {α : Type} (a b : NDArray α) : Prop := a.shape = b.shape ∧ a.flat = b.flat

instance {α : Type} [DecidableEq α] (a b : NDArray α) : Decidable (aeq a b) := by
  unfold aeq; infer_instance

/-- numpy a.transpose(axes): axis i of the result is axis axes[i] of a, so the
result reads entry idx from the source entry whose axes[i]-th coordinate is
idx[i]. -/
def npTranspose {α : Type} (axes : List Nat) (a : NDArray α) : NDArray α where
  shape := axes.map (fun ax => a.shape.getD ax 0)
  data := fun idx => a.data ((List.range a.ndim).map (fun m => idx.getD (axes.indexOf m) 0))

/-- numpy a.transpose() with no arguments: reverse the axis order. -/
def npTransposeAll {α : Type} (a : NDArray α) : NDArray α :=
  npTranspose (List.range a.ndim).reverse a

/-- numpy a[i] on the leading axis. -/
def sliceAt {α : Type} (a : NDArray α) (i : Nat) : NDArray α where
  shape := a.shape.drop 1
  data := fun idx => a.data (i :: idx)

/-- numpy a[:n] on the leading axis. -/
def sliceFirst {α : Type} (a : NDArray α) (n : Nat) : NDArray α where
  shape := n :: a.shape.drop 1
  data := a.data

/-- numpy elementwise product of same-shaped arrays. -/
def emul (a b : NDArray ℚ) : NDArray ℚ where
  shape := a.shape
  data := fun idx => a.data idx * b.data idx

/-- numpy elementwise quotient of same-shaped arrays. -/
def ediv (a b : NDArray ℚ) : NDArray ℚ where
  shape := a.shape
  data := fun idx => a.data idx / b.data idx

/-- numpy a.sum(axis=0). -/
def sumAxis0 (a : NDArray ℚ) : NDArray ℚ where
  shape := a.shape.drop 1
  data := fun idx => ∑ s ∈ Finset.range (a.shape.getD 0 0), a.data (s :: idx)

/-! ## gemini3d.hdf: size descriptor -/

/-- The number of species, gemini3d.hdf.LSP. -/
def LSP : Nat := 7

/-- The size-descriptor container read by gemini3d.hdf.get_simsize: each
optional field is the dataset stored under that legacy key. -/
structure SizeFile where
  lxs : Option (NDArray Nat)
  lx : Option (NDArray Nat)
  lx1 : Option (NDArray Nat)
  lx2 : Option (NDArray Nat)
  lx3 : Option (NDArray Nat)

/-- gemini3d.hdf.get_simsize: look for the dimension array under /lxs, then
/lx, then assemble it from the per-axis keys /lx1, /lx2, /lx3, where each
per-axis dataset may be a scalar (ndim 0) or a singleton array (squeezed and
unwrapped; modelled as taking the first stored element).  A KeyError escapes
when none of the keys is present, and also when /lx1 is present but /lx2 or
/lx3 is not. -/
def get_simsize (f : SizeFile) : Except String (List Nat) :=
  match f.lxs with
  | some a => .ok a.flat
  | none =>
    match f.lx with
    | some a => .ok a.flat
    | none =>
      match f.lx1 with
      | some a1 =>
        match f.lx2, f.lx3 with
        | some a2, some a3 =>
          if 0 < a1.ndim then
            .ok [a1.flat.getD 0 0, a2.flat.getD 0 0, a3.flat.getD 0 0]
          else
            .ok [a1.data [], a2.data [], a3.data []]
        | _, _ => .error "KeyError: lx2 or lx3"
      | none => .error "KeyError: could not find /lxs, /lx or /lx1"

/-! ## gemini3d.hdf: state writer and full-curvilinear frame reader -/

/-- The datasets written by gemini3d.hdf.write_state (the /time group is not
modelled; no claim mentions it). -/
structure StateFile where
  nsall : NDArray ℚ
  vs1all : NDArray ℚ
  Tsall : NDArray ℚ

/-- gemini3d.hdf.write_state: each species-resolved array is stored after the
fixed 4-axis permutation p4 = (0, 3, 2, 1); the float32 cast applied by
create_dataset is abstracted as exact. -/
def write_state (ns vs Ts : NDArray ℚ) : StateFile where
  nsall := npTranspose [0, 3, 2, 1] ns
  vs1all := npTranspose [0, 3, 2, 1] vs
  Tsall := npTranspose [0, 3, 2, 1] Ts

/-- The datasets of a full-curvilinear (flagoutput 1) frame file that
gemini3d.hdf.loadframe3d_curv reads (the /time group is not modelled). -/
structure FrameFileCurv where
  nsall : NDArray ℚ
  vs1all : NDArray ℚ
  Tsall : NDArray ℚ
  J1all : NDArray ℚ
  J2all : NDArray ℚ
  J3all : NDArray ℚ
  v2avgall : NDArray ℚ
  v3avgall : NDArray ℚ
  Phiall : NDArray ℚ

/-- The mapping returned by gemini3d.hdf.loadframe3d_curv (without the time
entry). -/
structure FrameDataCurv where
  ns : NDArray ℚ
  vs : NDArray ℚ
  Ts : NDArray ℚ
  ne : NDArray ℚ
  v1 : NDArray ℚ
  Ti : NDArray ℚ
  Te : NDArray ℚ
  J1 : NDArray ℚ
  J2 : NDArray ℚ
  J3 : NDArray ℚ
  v2 : NDArray ℚ
  v3 : NDArray ℚ
  Phitop : NDArray ℚ

/-- The 4-axis read permutation of loadframe3d_curv, chosen from the grid
size: (0, 3, 1, 2) for an east-west degenerate grid (lxs[2] == 1), otherwise
(0, 3, 2, 1). -/
def curv_p4 (lxs : List Nat) : List Nat :=
  if lxs.getD 2 0 == 1 then [0, 3, 1, 2] else [0, 3, 2, 1]

/-- The 3-axis read permutation of loadframe3d_curv, chosen from the grid
size: (2, 0, 1) for an east-west degenerate grid (lxs[2] == 1), otherwise
(2, 1, 0). -/
def curv_p3 (lxs : List Nat) : List Nat :=
  if lxs.getD 2 0 == 1 then [2, 0, 1] else [2, 1, 0]

/-- gemini3d.hdf.loadframe3d_curv: permutes the species-resolved arrays with
curv_p4, checks that ns has exactly LSP species and the declared spatial
shape, derives the bulk moments, permutes the 3-D fields with curv_p3
checking only J1, and transposes Phiall fully.  lxs is the triple obtained by
get_simsize from the companion inputs/simsize.h5. -/
def loadframe3d_curv (lxs : List Nat) (f : FrameFileCurv) : Except String FrameDataCurv :=
  let p4 := curv_p4 lxs
  let p3 := curv_p3 lxs
  let ns := npTranspose p4 f.nsall
  if ns.shape.getD 0 0 ≠ LSP ∨ ns.shape.drop 1 ≠ lxs then
    .error "may have wrong permutation on read: ns"
  else
    let vs := npTranspose p4 f.vs1all
    let Ts := npTranspose p4 f.Tsall
    let ne := sliceAt ns (LSP - 1)
    let v1 := ediv (sumAxis0 (emul (sliceFirst ns 6) (sliceFirst vs 6))) ne
    let Ti := ediv (sumAxis0 (emul (sliceFirst ns 6) (sliceFirst Ts 6))) ne
    let Te := sliceAt Ts (LSP - 1)
    let J1 := npTranspose p3 f.J1all
    if J1.shape ≠ lxs then
      .error "may have wrong permutation on read: J1"
    else
      .ok { ns := ns, vs := vs, Ts := Ts, ne := ne, v1 := v1, Ti := Ti, Te := Te,
            J1 := J1,
            J2 := npTranspose p3 f.J2all,
            J3 := npTranspose p3 f.J3all,
            v2 := npTranspose p3 f.v2avgall,
            v3 := npTranspose p3 f.v3avgall,
            Phitop := npTransposeAll f.Phiall }

/-- The datasets of a curvilinear-averaged (flagoutput 2) frame file read by
gemini3d.hdf.loadframe3d_curvavg. -/
structure FrameFileAvg where
  neall : NDArray ℚ
  v1avgall : NDArray ℚ
  Tavgall : NDArray ℚ
  TEall : NDArray ℚ
  J1all : NDArray ℚ
  J2all : NDArray ℚ
  J3all : NDArray ℚ
  v2avgall : NDArray ℚ
  v3avgall : NDArray ℚ
  Phiall : NDArray ℚ

/-- The mapping returned by gemini3d.hdf.loadframe3d_curvavg (without the
time entry). -/
structure FrameDataAvg where
  ne : NDArray ℚ
  v1 : NDArray ℚ
  Ti : NDArray ℚ
  Te : NDArray ℚ
  J1 : NDArray ℚ
  J2 : NDArray ℚ
  J3 : NDArray ℚ
  v2 : NDArray ℚ
  v3 : NDArray ℚ
  Phitop : NDArray ℚ

/-- The boolean array numpy produces for a tuple-against-ndarray inequality
test (the tuple delegates to the reflected ndarray comparison): an
elementwise comparison after broadcasting, and the legacy scalar True
(none here) when the two lengths cannot be broadcast together. -/
def npNeqBroadcast (shape lxs : List Nat) : Option (List Bool) :=
  if shape.length = lxs.length then
    some (List.zipWith (fun a b => decide (a ≠ b)) shape lxs)
  else if shape.length = 1 then
    some (lxs.map (fun b => decide (shape.getD 0 0 ≠ b)))
  else if lxs.length = 1 then
    some (shape.map (fun a => decide (a ≠ lxs.getD 0 0)))
  else
    none

/-- Python truthiness of a comparison result used as an if condition: the
legacy scalar True when broadcasting failed, the single element of a 0- or
1-element boolean array, and a ValueError for a longer array. -/
def ifTruth : Option (List Bool) → Except String Bool
  | none => .ok true
  | some [] => .ok false
  | some [b] => .ok b
  | some (_ :: _ :: _) =>
    .error "ValueError: truth value of an array with more than one element is ambiguous"

/-- The bare shape check of loadframe3d_curvavg, hdf.py line 553: the field
shape tuple is compared against the ndarray lxs with a plain inequality and
the result is used directly as an if condition, with no np.any reduction, so
a ValueError escapes whenever the comparison result holds more than one
element. -/
def curvavg_check (shape lxs : List Nat) (msg : String) : Except String Unit :=
  match ifTruth (npNeqBroadcast shape lxs) with
  | .error e => .error e
  | .ok true => .error msg
  | .ok false => .ok ()

/-- gemini3d.hdf.loadframe3d_curvavg: each pre-reduced bulk field is permuted
with the fixed 3-axis permutation (2, 0, 1) and its shape tuple is compared
against the ndarray grid size with the bare inequality of the source (no
np.any reduction, unlike the checks of loadframe3d_curv), in the source's
iteration order; Phiall is imported without a transpose. -/
def loadframe3d_curvavg (lxs : List Nat) (f : FrameFileAvg) : Except String FrameDataAvg :=
  let p3 : List Nat := [2, 0, 1]
  let ne := npTranspose p3 f.neall
  match curvavg_check ne.shape lxs "simsize does not match neall" with
  | .error e => .error e
  | .ok _ =>
  let v1 := npTranspose p3 f.v1avgall
  match curvavg_check v1.shape lxs "simsize does not match v1avgall" with
  | .error e => .error e
  | .ok _ =>
  let Ti := npTranspose p3 f.Tavgall
  match curvavg_check Ti.shape lxs "simsize does not match Tavgall" with
  | .error e => .error e
  | .ok _ =>
  let Te := npTranspose p3 f.TEall
  match curvavg_check Te.shape lxs "simsize does not match TEall" with
  | .error e => .error e
  | .ok _ =>
  let J1 := npTranspose p3 f.J1all
  match curvavg_check J1.shape lxs "simsize does not match J1all" with
  | .error e => .error e
  | .ok _ =>
  let J2 := npTranspose p3 f.J2all
  match curvavg_check J2.shape lxs "simsize does not match J2all" with
  | .error e => .error e
  | .ok _ =>
  let J3 := npTranspose p3 f.J3all
  match curvavg_check J3.shape lxs "simsize does not match J3all" with
  | .error e => .error e
  | .ok _ =>
  let v2 := npTranspose p3 f.v2avgall
  match curvavg_check v2.shape lxs "simsize does not match v2avgall" with
  | .error e => .error e
  | .ok _ =>
  let v3 := npTranspose p3 f.v3avgall
  match curvavg_check v3.shape lxs "simsize does not match v3avgall" with
  | .error e => .error e
  | .ok _ =>
  .ok { ne := ne, v1 := v1, Ti := Ti, Te := Te, J1 := J1, J2 := J2, J3 := J3,
        v2 := v2, v3 := v3, Phitop := f.Phiall }

/-! ## gemini3d.hdf: grid reader and writer -/

/-- Dictionary lookup in an association-list model of a Python dict. -/
def lookupArr (g : List (String × NDArray ℚ)) (k : String) : Option (NDArray ℚ) :=
  (g.find? (fun kv => kv.1 == k)).map (fun kv => kv.2)

/-- The result of gemini3d.hdf.readgrid: the imported fields, and the lxs
entry the function adds to the dict (absent on the early empty return taken
when the grid file is missing). -/
structure GridOut where
  fields : List (String × NDArray ℚ)
  lxs : Option (List Nat)

/-- gemini3d.hdf.readgrid: when the grid file is not present, logs an error
and returns the empty mapping.  Otherwise imports every stored dataset,
transposing those of rank at least 2 and leaving rank 0 or 1 datasets
unchanged, then attaches lxs: from get_simsize on the companion simsize.h5
when that file exists (a KeyError from it escapes), and otherwise from the
element counts of the x1, x2, x3 entries of the imported grid (a KeyError
escapes if those are absent). -/
def readgrid (fn : Option (List (String × NDArray ℚ))) (size : Option SizeFile) :
    Except String GridOut :=
  match fn with
  | none => .ok { fields := [], lxs := none }
  | some fields =>
    let grid := fields.map (fun kv => if 2 ≤ kv.2.ndim then (kv.1, npTransposeAll kv.2) else kv)
    match size with
    | some sf =>
      match get_simsize sf with
      | .ok lxs => .ok { fields := grid, lxs := some lxs }
      | .error e => .error e
    | none =>
      match lookupArr grid "x1", lookupArr grid "x2", lookupArr grid "x3" with
      | some a1, some a2, some a3 =>
        .ok { fields := grid, lxs := some [a1.size, a2.size, a3.size] }
      | _, _, _ => .error "KeyError: x1, x2 or x3"

/-- The recognized grid field names, in the exact write order of
gemini3d.hdf.write_grid: ten per-axis families for each axis index, then the
fifteen named geophysical fields. -/
def grid_keys : List String :=
  (["1", "2", "3"].flatMap (fun i =>
    ["x" ++ i, "x" ++ i ++ "i", "dx" ++ i ++ "b", "dx" ++ i ++ "h", "h" ++ i,
     "h" ++ i ++ "x1i", "h" ++ i ++ "x2i", "h" ++ i ++ "x3i", "gx" ++ i, "e" ++ i]))
  ++ ["alt", "glat", "glon", "Bmag", "I", "nullpts", "er", "etheta", "ephi",
      "r", "theta", "phi", "x", "y", "z"]

/-- The grid mapping passed to gemini3d.hdf.write_grid: the integer lx entry
is kept apart from the numeric fields. -/
structure XG where
  lx : Option (NDArray Nat)
  fields : List (String × NDArray ℚ)

/-- np.array([xg["x1"].shape, xg["x2"].shape, xg["x3"].shape]) for rank-1
axis arrays: a (3, 1) integer array holding the three axis lengths. -/
def lxFromAxes (a1 a2 a3 : NDArray ℚ) : NDArray Nat where
  shape := [3, 1]
  data := fun idx =>
    (match idx.getD 0 0 with
     | 0 => a1.shape
     | 1 => a2.shape
     | _ => a3.shape).getD (idx.getD 1 0) 0

/-- One file written by gemini3d.hdf.write_grid, in order: first the size
descriptor holding /lx, then the grid file holding the recognized fields. -/
inductive WriteEv where
  | size (lx : NDArray Nat)
  | grid (fields : List (String × NDArray ℚ))

/-- gemini3d.hdf.write_grid: computes lx from the x1, x2, x3 axis arrays when
the mapping has no lx entry (a KeyError escapes if those are absent), writes
the size descriptor, then writes every recognized field that is present, in
the fixed key order, transposing rank-at-least-2 fields and writing rank 0
or 1 fields as they are; absent recognized fields are skipped.  The float32
casts are abstracted as exact. -/
def write_grid (xg : XG) : Except String (List WriteEv) :=
  let lxE : Except String (NDArray Nat) :=
    match xg.lx with
    | some a => .ok a
    | none =>
      match lookupArr xg.fields "x1", lookupArr xg.fields "x2", lookupArr xg.fields "x3" with
      | some a1, some a2, some a3 => .ok (lxFromAxes a1 a2 a3)
      | _, _, _ => .error "KeyError: x1, x2 or x3"
  match lxE with
  | .error e => .error e
  | .ok lx =>
    .ok [WriteEv.size lx,
         WriteEv.grid (grid_keys.filterMap (fun k =>
           (lookupArr xg.fields k).map (fun a =>
             (k, if 2 ≤ a.ndim then npTransposeAll a else a))))]

/-! ## gemini3d.hdf: electric-field boundary series -/

/-- An in-memory Efield series as passed to gemini3d.hdf.write_Efield: the
2-D interior fields and boundary planes carry a leading time axis, the 1-D
edge profiles likewise. -/
structure EfieldSeries where
  mlon : NDArray ℚ
  mlat : NDArray ℚ
  flagdirich : NDArray ℚ
  Exit : NDArray ℚ
  Eyit : NDArray ℚ
  Vminx1it : NDArray ℚ
  Vmaxx1it : NDArray ℚ
  Vminx2ist : NDArray ℚ
  Vmaxx2ist : NDArray ℚ
  Vminx3ist : NDArray ℚ
  Vmaxx3ist : NDArray ℚ

/-- The companion simgrid.h5 written and read by the Efield functions. -/
structure EfieldGridFile where
  mlon : NDArray ℚ
  mlat : NDArray ℚ

/-- One per-timestamp Efield file as written by gemini3d.hdf.write_Efield. -/
structure EfieldFrameFile where
  flagdirich : NDArray ℚ
  Exit : NDArray ℚ
  Eyit : NDArray ℚ
  Vminx1it : NDArray ℚ
  Vmaxx1it : NDArray ℚ
  Vminx2ist : NDArray ℚ
  Vmaxx2ist : NDArray ℚ
  Vminx3ist : NDArray ℚ
  Vmaxx3ist : NDArray ℚ

/-- The mapping returned by gemini3d.hdf.read_Efield (the dimension-name tags
it pairs with each array are not modelled). -/
structure EfieldData where
  mlon : NDArray ℚ
  mlat : NDArray ℚ
  flagdirich : NDArray ℚ
  Exit : NDArray ℚ
  Eyit : NDArray ℚ
  Vminx1it : NDArray ℚ
  Vmaxx1it : NDArray ℚ
  Vminx2ist : NDArray ℚ
  Vmaxx2ist : NDArray ℚ
  Vminx3ist : NDArray ℚ
  Vmaxx3ist : NDArray ℚ

/-- The companion grid file written by gemini3d.hdf.write_Efield (float32
casts abstracted as exact). -/
def write_Efield_grid (E : EfieldSeries) : EfieldGridFile where
  mlon := E.mlon
  mlat := E.mlat

/-- The frame-i file written by gemini3d.hdf.write_Efield: each 2-D field is
sliced at time index i and transposed before writing; each 1-D edge profile
is sliced and written as it is (the /time group is not modelled; float32 and
int32 casts abstracted as exact). -/
def write_Efield_frame (E : EfieldSeries) (i : Nat) : EfieldFrameFile where
  flagdirich := sliceAt E.flagdirich i
  Exit := npTransposeAll (sliceAt E.Exit i)
  Eyit := npTransposeAll (sliceAt E.Eyit i)
  Vminx1it := npTransposeAll (sliceAt E.Vminx1it i)
  Vmaxx1it := npTransposeAll (sliceAt E.Vmaxx1it i)
  Vminx2ist := sliceAt E.Vminx2ist i
  Vmaxx2ist := sliceAt E.Vmaxx2ist i
  Vminx3ist := sliceAt E.Vminx3ist i
  Vmaxx3ist := sliceAt E.Vmaxx3ist i

/-- gemini3d.hdf.read_Efield: imports mlon and mlat from the companion grid
file and every per-frame dataset exactly as stored, with no transpose. -/
def read_Efield (g : EfieldGridFile) (f : EfieldFrameFile) : EfieldData where
  mlon := g.mlon
  mlat := g.mlat
  flagdirich := f.flagdirich
  Exit := f.Exit
  Eyit := f.Eyit
  Vminx1it := f.Vminx1it
  Vmaxx1it := f.Vmaxx1it
  Vminx2ist := f.Vminx2ist
  Vmaxx2ist := f.Vmaxx2ist
  Vminx3ist := f.Vminx3ist
  Vmaxx3ist := f.Vmaxx3ist

/-! ## gemini3d.find: timestamp-keyed frame lookup

A simulation output directory is modelled as the list of its frame files,
each already split into the four components of the naming convention
date8_sssss.uuuuuu.ext.  Python datetime and timedelta values are exact
counts of microseconds, so all time arithmetic is carried out in integer
microseconds; the float parse of the candidate's embedded time-of-day
recovers exactly seconds + microseconds/1e6 for well-formed names, since a
value with at most microsecond precision below 1e5 seconds round-trips
through a double. -/

/-- A frame file in the simulation directory, named
date8_sssss.uuuuuu together with its suffix. -/
structure FrameEntry where
  date : Nat
  sec : Nat
  usec : Nat
  ext : String
deriving DecidableEq

/-- A requested datetime: its date, its seconds of day
(hour * 3600 + minute * 60 + second), and its microseconds. -/
structure ReqTime where
  date : Nat
  sod : Nat
  usec : Nat
deriving DecidableEq

/-- The exact frame filename built from the requested time for one suffix. -/
def exactEntry (t : ReqTime) (ext : String) : FrameEntry where
  date := t.date
  sec := t.sod
  usec := t.usec
  ext := ext

/-- The time-of-day a candidate's filename encodes, in microseconds. -/
def entryUsec (e : FrameEntry) : Nat := e.sec * 1000000 + e.usec

/-- The requested time-of-day, in microseconds. -/
def reqUsec (t : ReqTime) : Nat := t.sod * 1000000 + t.usec

/-- The absolute offset between a candidate file's time and the requested
time, in microseconds. -/
def frameDist (t : ReqTime) (e : FrameEntry) : Nat :=
  ((entryUsec e : ℤ) - (reqUsec t : ℤ)).natAbs

/-- MAX_OFFSET, the one-second matching tolerance, in microseconds. -/
def MAX_OFFSET_USEC : Nat := 1000000

/-- A natural number printed in decimal, zero-padded to the given width. -/
def pad (w n : Nat) : String :=
  let s := toString n
  String.mk (List.replicate (w - s.length) '0') ++ s

/-- The filename stem the resolver builds from the requested time:
strftime date, an underscore, the 5-digit seconds of day, a dot, and the
6-digit microseconds. -/
def stemOf (t : ReqTime) : String :=
  pad 8 t.date ++ "_" ++ pad 5 t.sod ++ "." ++ pad 6 t.usec

/-- The files the glob date8_* plus one suffix matches in the directory. -/
def frameCands (dir : List FrameEntry) (t : ReqTime) (ext : String) : List FrameEntry :=
  dir.filter (fun e => e.date == t.date && e.ext == ext)

/-- np.argmin over the candidate offsets: the first candidate attaining the
minimal absolute offset from the requested time. -/
def closestEntry (t : ReqTime) : List FrameEntry → Option FrameEntry
  | [] => none
  | e :: rest =>
    match closestEntry t rest with
    | none => some e
    | some b => if frameDist t b < frameDist t e then some b else some e

/-- The exact-filename probe of the first loop of gemini3d.find.frame: the
built filename when it exists in the directory. -/
def exactFor (dir : List FrameEntry) (t : ReqTime) (ext : String) : Option FrameEntry :=
  if dir.contains (exactEntry t ext) then some (exactEntry t ext) else none

/-- The glob-and-parse fallback of gemini3d.find.frame for one suffix: the
candidate closest to the requested time, provided it is within the
one-second tolerance. -/
def fallbackFor (dir : List FrameEntry) (t : ReqTime) (ext : String) : Option FrameEntry :=
  match closestEntry t (frameCands dir t ext) with
  | none => none
  | some c => if frameDist t c ≤ MAX_OFFSET_USEC then some c else none

/-- gemini3d.find.frame: build the exact expected filename for each allowed
suffix and return the first that exists; otherwise, for each suffix, glob
the files sharing the date portion of the stem, parse each candidate's
embedded time-of-day, and return the closest candidate if it is within the
one-second tolerance; otherwise raise when required, naming the attempted
stem, and return nothing when not. -/
def frame (dir : List FrameEntry) (t : ReqTime) (file_format : Option String)
    (required : Bool) : Except String (Option FrameEntry) :=
  let suffixes := match file_format with
    | some fmt => ["." ++ fmt]
    | none => [".h5", ".nc"]
  match suffixes.findSome? (exactFor dir t) with
  | some fn => .ok (some fn)
  | none =>
    match suffixes.findSome? (fallbackFor dir t) with
    | some c => .ok (some c)
    | none =>
      if required then .error (stemOf t ++ " not found in simdir")
      else .ok none

/-! ## gemini3d.compare.grid: the grid comparator -/

/-- A value of a loaded grid mapping: an array, or a non-array entry that
the comparator skips. -/
inductive GVal where
  | arr (a : NDArray ℚ)
  | other

/-- Dictionary lookup in the candidate grid. -/
def lookupG (g : List (String × GVal)) (k : String) : Option GVal :=
  (g.find? (fun kv => kv.1 == k)).map (fun kv => kv.2)

/-- np.allclose(a, b, rtol, atol): every element satisfies
the absolute difference being at most atol + rtol * the magnitude of b. -/
def allcloseB (a b : NDArray ℚ) (rtol atol : ℚ) : Bool :=
  (indicesOf a.shape).all (fun idx =>
    decide (|a.data idx - b.data idx| ≤ atol + rtol * |b.data idx|))

/-- The field loop of gemini3d.compare.grid.compare_grid over the reference
entries: non-array entries are skipped; a missing or non-array candidate
entry raises; a shape disagreement raises (AssertionError, so it is not
counted); a tolerance failure adds one to the running error count. -/
def compare_fields (new : List (String × GVal)) (rtol atol : ℚ) :
    List (String × GVal) → Except String Nat
  | [] => .ok 0
  | (_, GVal.other) :: rest => compare_fields new rtol atol rest
  | (k, GVal.arr a) :: rest =>
    match lookupG new k with
    | none => .error ("KeyError: " ++ k)
    | some GVal.other => .error ("AttributeError: " ++ k)
    | some (GVal.arr b) =>
      if a.shape ≠ b.shape then .error ("ref shape does not match data shape: " ++ k)
      else
        match compare_fields new rtol atol rest with
        | .error e => .error e
        | .ok n => .ok ((if allcloseB a b rtol atol then 0 else 1) + n)

/-- gemini3d.compare.grid.compare_grid on the two loaded grid mappings (the
loading of both directories through gemini3d.read.grid is factored out; the
tolerance pair is the resolved tol mapping). -/
def compare_grid (ref new : List (String × GVal)) (rtol atol : ℚ) : Except String Nat :=
  compare_fields new rtol atol ref

/-! ## gemini3d.read.grid and its filename resolution -/

/-- The candidate paths the directory arm of gemini3d.find.find_stem probes,
in order: the directory itself then its inputs subdirectory, each suffix in
preference order, paired with the suffix used. -/
def stemCandidates (path stem : String) (suffixes : List String) : List (String × String) :=
  ([path, path ++ "/inputs"].flatMap (fun p =>
    suffixes.map (fun suff => (p ++ "/" ++ stem ++ suff, suff))))

/-- The directory arm of gemini3d.find.find_stem: return the first candidate
that exists in the filesystem; otherwise raise when required, naming the stem
and the search root, and return nothing when not.  The filesystem is the list
of existing file paths. -/
def find_stem_dir (fs : List String) (path stem : String) (suffixes : List String)
    (required : Bool) : Except String (Option (String × String)) :=
  match (stemCandidates path stem suffixes).find? (fun c => fs.contains c.1) with
  | some f => .ok (some f)
  | none =>
    if required then .error (stem ++ " not found in " ++ path)
    else .ok none

/-- Modelled from the spec: gemini3d.read imports get_grid_filename from the
find module, whose source in this snapshot exposes the equivalent simgrid
resolver (find.grid delegating to find_stem with stem simgrid, the default
suffix list, and required defaulting to False); the missing alias is modelled
as exactly that call. -/
def get_grid_filename (fs : List String) (path : String) :
    Except String (Option (String × String)) :=
  find_stem_dir fs path "simgrid" [".h5", ".nc"] false

/-- gemini3d.read.grid: resolve the grid filename; when nothing resolves,
return the empty mapping; otherwise dispatch on the suffix, the hdf backend
being gemini3d.hdf.readgrid on the file's stored fields and its companion
size file (the nc, dat and mat backends are not part of this snapshot and
are modelled as raising). -/
def read_grid (fs : List String) (gridStore : String → Option (List (String × NDArray ℚ)))
    (sizeStore : String → Option SizeFile) (path : String) : Except String GridOut :=
  match get_grid_filename fs path with
  | .error e => .error e
  | .ok none => .ok { fields := [], lxs := none }
  | .ok (some (fn, suff)) =>
    if suff == ".h5" then readgrid (gridStore fn) (sizeStore fn)
    else .error "backend not in this snapshot"

/-! ## General lemmas about the array model -/

theorem npTranspose_shape {α : Type} (axes : List Nat) (a : NDArray α) :
    (npTranspose axes a).shape = axes.map (fun ax => a.shape.getD ax 0) := rfl

/-- The shape of a (0, 3, 2, 1) transpose of a rank-4 array. -/
theorem npTranspose_0321_shape {α : Type} (a : NDArray α) (s0 s1 s2 s3 : Nat)
    (h : a.shape = [s0, s1, s2, s3]) :
    (npTranspose [0, 3, 2, 1] a).shape = [s0, s3, s2, s1] := by
  rw [npTranspose_shape, h]; rfl

/-- The shape of a (2, 1, 0) transpose of a rank-3 array. -/
theorem npTranspose_210_shape {α : Type} (a : NDArray α) (s0 s1 s2 : Nat)
    (h : a.shape = [s0, s1, s2]) :
    (npTranspose [2, 1, 0] a).shape = [s2, s1, s0] := by
  rw [npTranspose_shape, h]; rfl

/-- Writing with the (0, 3, 2, 1) permutation and reading back with the same
permutation restores every entry of a rank-4 array. -/
theorem npTranspose_0321_0321_data {α : Type} (a : NDArray α) (s0 s1 s2 s3 : Nat)
    (h : a.shape = [s0, s1, s2, s3]) (i j k l : Nat) :
    (npTranspose [0, 3, 2, 1] (npTranspose [0, 3, 2, 1] a)).data [i, j, k, l] =
      a.data [i, j, k, l] := by
  obtain ⟨sh, d⟩ := a
  simp only at h
  subst h
  rfl

theorem length_of_mem_indicesOf :
    ∀ (sh idx : List Nat), idx ∈ indicesOf sh → idx.length = sh.length := by
  intro sh
  induction sh with
  | nil =>
    intro idx h
    simp only [indicesOf, List.mem_singleton] at h
    subst h
    rfl
  | cons d ds ih =>
    intro idx h
    simp only [indicesOf, List.mem_flatMap, List.mem_map, List.mem_range] at h
    obtain ⟨i, _, tl, htl, rfl⟩ := h
    simp [ih tl htl]

theorem list_of_length_three {idx : List Nat} (h : idx.length = 3) :
    ∃ i j k, idx = [i, j, k] := by
  rcases idx with _ | ⟨i, _ | ⟨j, _ | ⟨k, _ | ⟨l, tl⟩⟩⟩⟩ <;> simp_all

theorem list_of_length_four {idx : List Nat} (h : idx.length = 4) :
    ∃ i j k l, idx = [i, j, k, l] := by
  rcases idx with _ | ⟨i, _ | ⟨j, _ | ⟨k, _ | ⟨l, _ | ⟨m, tl⟩⟩⟩⟩⟩ <;> simp_all

theorem exceptIsOk_error {ε α : Type} (e : ε) :
    (Except.error e : Except ε α).isOk = false := rfl

theorem exceptIsOk_ok {ε α : Type} (a : α) :
    (Except.ok a : Except ε α).isOk = true := rfl

/-- Arrays with equal shapes and equal data on every in-bounds index are
extensionally equal. -/
theorem aeq_of_pointwise {α : Type} (a b : NDArray α) (hsh : a.shape = b.shape)
    (h : ∀ idx ∈ indicesOf a.shape, a.data idx = b.data idx) : aeq a b := by
  refine ⟨hsh, ?_⟩
  unfold NDArray.flat
  rw [← hsh]
  exact List.map_congr_left h

/-! ## C1: bulk-moment derivation in loadframe3d_curv -/

/-- C1: for every full-curvilinear frame accepted by loadframe3d_curv, with
ns, vs, Ts denoting the species-resolved arrays permuted into
(species, x1, x2, x3) order, the returned bulk density is the top (7th)
species' density slice, the bulk parallel velocity is the sum over the first
6 ion species of ns * vs divided by the bulk density, the ion temperature is
the sum over the first 6 ion species of ns * Ts divided by the bulk density,
and the electron temperature is the top species' temperature slice. -/
theorem loadframe3d_curv_bulk_moments (lxs : List Nat) (f : FrameFileCurv)
    (d : FrameDataCurv) (h : loadframe3d_curv lxs f = Except.ok d) (idx : List Nat) :
    d.ne.shape = (npTranspose (curv_p4 lxs) f.nsall).shape.drop 1 ∧
    d.ne.data idx = (npTranspose (curv_p4 lxs) f.nsall).data (6 :: idx) ∧
    d.v1.data idx =
      (∑ s ∈ Finset.range 6,
        (npTranspose (curv_p4 lxs) f.nsall).data (s :: idx) *
          (npTranspose (curv_p4 lxs) f.vs1all).data (s :: idx)) /
        (npTranspose (curv_p4 lxs) f.nsall).data (6 :: idx) ∧
    d.Ti.data idx =
      (∑ s ∈ Finset.range 6,
        (npTranspose (curv_p4 lxs) f.nsall).data (s :: idx) *
          (npTranspose (curv_p4 lxs) f.Tsall).data (s :: idx)) /
        (npTranspose (curv_p4 lxs) f.nsall).data (6 :: idx) ∧
    d.Te.data idx = (npTranspose (curv_p4 lxs) f.Tsall).data (6 :: idx) := by
  simp only [loadframe3d_curv] at h
  split at h
  · exact absurd h (by simp)
  split at h
  · exact absurd h (by simp)
  simp only [Except.ok.injEq] at h
  subst h
  exact ⟨rfl, rfl, rfl, rfl, rfl⟩

/-- A concrete full-curvilinear frame file on the grid (1, 1, 2), with the
species-resolved arrays stored in the on-disk (species, x3, x2, x1) order. -/
def exFileC1 : FrameFileCurv where
  nsall := ⟨[7, 2, 1, 1], fun idx => (idx.sum : ℚ) + 1⟩
  vs1all := ⟨[7, 2, 1, 1], fun idx => (idx.sum : ℚ) - 1⟩
  Tsall := ⟨[7, 2, 1, 1], fun idx => (idx.sum : ℚ) + 2⟩
  J1all := ⟨[2, 1, 1], fun idx => (idx.sum : ℚ)⟩
  J2all := ⟨[2, 1, 1], fun _ => 0⟩
  J3all := ⟨[2, 1, 1], fun _ => 0⟩
  v2avgall := ⟨[2, 1, 1], fun _ => 0⟩
  v3avgall := ⟨[2, 1, 1], fun _ => 0⟩
  Phiall := ⟨[2, 1], fun _ => 0⟩

/-- An arbitrary placeholder array. -/
def arr0 : NDArray ℚ := ⟨[], fun _ => 0⟩

/-- The frame mapping loadframe3d_curv returns on exFileC1. -/
def exDataC1 : FrameDataCurv :=
  (loadframe3d_curv [1, 1, 2] exFileC1).toOption.getD
    ⟨arr0, arr0, arr0, arr0, arr0, arr0, arr0, arr0, arr0, arr0, arr0, arr0, arr0⟩

theorem loadframe3d_curv_bulk_moments_witness :
    loadframe3d_curv [1, 1, 2] exFileC1 = Except.ok exDataC1 ∧
    exDataC1.ne.data [0, 0, 1] =
      (npTranspose (curv_p4 [1, 1, 2]) exFileC1.nsall).data (6 :: [0, 0, 1]) :=
  ⟨rfl, (loadframe3d_curv_bulk_moments [1, 1, 2] exFileC1 exDataC1 rfl [0, 0, 1]).2.1⟩

/-! ## C3: which frame arrays are shape-checked -/

/-- The shape of the J2 entry of a successful full-curvilinear read. -/
def shapeOfJ2 : Except String FrameDataCurv → Option (List Nat)
  | .ok d => some d.J2.shape
  | .error _ => none

/-- A full-curvilinear frame file on the grid (1, 1, 2) whose stored J2all
has the wrong shape: after the 3-axis read permutation its shape (1, 1, 1)
does not match the declared grid size (1, 1, 2). -/
def exFileC3 : FrameFileCurv where
  nsall := ⟨[7, 2, 1, 1], fun idx => (idx.sum : ℚ) + 1⟩
  vs1all := ⟨[7, 2, 1, 1], fun idx => (idx.sum : ℚ) - 1⟩
  Tsall := ⟨[7, 2, 1, 1], fun idx => (idx.sum : ℚ) + 2⟩
  J1all := ⟨[2, 1, 1], fun idx => (idx.sum : ℚ)⟩
  J2all := ⟨[1, 1, 1], fun _ => 0⟩
  J3all := ⟨[2, 1, 1], fun _ => 0⟩
  v2avgall := ⟨[2, 1, 1], fun _ => 0⟩
  v3avgall := ⟨[2, 1, 1], fun _ => 0⟩
  Phiall := ⟨[2, 1], fun _ => 0⟩

/-- C3 counterexample: loadframe3d_curv accepts a frame whose J2 component
has spatial shape (1, 1, 1) although the declared grid size is (1, 1, 2):
the read succeeds and returns the wrong-shaped array instead of raising. -/
theorem loadframe3d_curv_accepts_wrong_J2 :
    shapeOfJ2 (loadframe3d_curv [1, 1, 2] exFileC3) = some [1, 1, 1] ∧
    ([1, 1, 1] : List Nat) ≠ [1, 1, 2] :=
  ⟨rfl, by decide⟩

/-- The bare shape check of loadframe3d_curvavg always raises on a rank-3
field shape: the comparison result has three elements when the grid size has
three entries (or one, after broadcasting), and the legacy scalar True is
itself truthy when the lengths cannot broadcast, so every arm of the Python
conditional raises. -/
theorem curvavg_check_three (a b c : Nat) (lxs : List Nat) (msg : String) :
    ∃ e, curvavg_check [a, b, c] lxs msg = Except.error e := by
  rcases lxs with _ | ⟨x, _ | ⟨y, _ | ⟨z, _ | ⟨w, rest⟩⟩⟩⟩
  · exact ⟨msg, rfl⟩
  · exact ⟨_, rfl⟩
  · exact ⟨msg, rfl⟩
  · exact ⟨_, rfl⟩
  · exact ⟨msg, rfl⟩

/-- C3 (amended): loadframe3d_curv raises exactly when the permuted ns has a
species axis other than 7 entries or a spatial shape differing from the
declared grid size, or the permuted J1 shape differs from the grid size; the
other frame arrays (vs, Ts, J2, J3, v2, v3, Phitop) are not shape-checked in
that mode.  loadframe3d_curvavg never accepts a frame at all: its bare
tuple-against-ndarray shape condition raises on every read, in particular
the ValueError for an ambiguous multi-element truth value whenever the
declared grid size is a triple, whether or not the shapes match. -/
theorem frame_shape_check_coverage :
    (∀ (lxs : List Nat) (f : FrameFileCurv),
      (loadframe3d_curv lxs f).isOk = true ↔
        ((npTranspose (curv_p4 lxs) f.nsall).shape.getD 0 0 = LSP ∧
         (npTranspose (curv_p4 lxs) f.nsall).shape.drop 1 = lxs ∧
         (npTranspose (curv_p3 lxs) f.J1all).shape = lxs)) ∧
    (∀ (lxs : List Nat) (f : FrameFileAvg),
      (loadframe3d_curvavg lxs f).isOk = false) ∧
    (∀ (l1 l2 l3 : Nat) (f : FrameFileAvg),
      loadframe3d_curvavg [l1, l2, l3] f =
        Except.error
          "ValueError: truth value of an array with more than one element is ambiguous") := by
  refine ⟨?_, ?_, fun l1 l2 l3 f => rfl⟩
  · intro lxs f
    simp only [loadframe3d_curv]
    split
    next hc =>
      simp only [exceptIsOk_error, Bool.false_eq_true, false_iff]
      rintro ⟨h1, h2, _⟩
      rcases hc with hc | hc
      · exact hc h1
      · exact hc h2
    next hc =>
      push_neg at hc
      split
      next hJ =>
        simp only [exceptIsOk_error, Bool.false_eq_true, false_iff]
        rintro ⟨_, _, h3⟩
        exact hJ h3
      next hJ =>
        push_neg at hJ
        simp only [exceptIsOk_ok, true_iff]
        exact ⟨hc.1, hc.2, hJ⟩
  · intro lxs f
    obtain ⟨e, he⟩ := curvavg_check_three (f.neall.shape.getD 2 0) (f.neall.shape.getD 0 0)
      (f.neall.shape.getD 1 0) lxs "simsize does not match neall"
    simp only [loadframe3d_curvavg]
    have hsh : (npTranspose [2, 0, 1] f.neall).shape =
        [f.neall.shape.getD 2 0, f.neall.shape.getD 0 0, f.neall.shape.getD 1 0] := rfl
    rw [hsh, he]
    rfl

/-- A well-shaped full-curvilinear frame file on the grid (1, 1, 2). -/
def exFileC3b : FrameFileCurv where
  nsall := ⟨[7, 2, 1, 1], fun _ => 1⟩
  vs1all := ⟨[7, 2, 1, 1], fun _ => 0⟩
  Tsall := ⟨[7, 2, 1, 1], fun _ => 1⟩
  J1all := ⟨[2, 1, 1], fun _ => 0⟩
  J2all := ⟨[2, 1, 1], fun _ => 0⟩
  J3all := ⟨[2, 1, 1], fun _ => 0⟩
  v2avgall := ⟨[2, 1, 1], fun _ => 0⟩
  v3avgall := ⟨[2, 1, 1], fun _ => 0⟩
  Phiall := ⟨[2, 1], fun _ => 0⟩

theorem frame_shape_check_coverage_witness :
    (loadframe3d_curv [1, 1, 2] exFileC3b).isOk = true :=
  (frame_shape_check_coverage.1 [1, 1, 2] exFileC3b).mpr (by decide)

/-! ## C2: write_state / loadframe3d_curv round trip on grid (2, 3, 4) -/

/-- The full-curvilinear frame file obtained by writing the species-resolved
volumes with write_state; the remaining datasets of the frame (the 3-D
current and drift fields and the potential) are supplied separately. -/
def roundtripFile (ns vs Ts J1d J2d J3d v2d v3d Phid : NDArray ℚ) : FrameFileCurv where
  nsall := (write_state ns vs Ts).nsall
  vs1all := (write_state ns vs Ts).vs1all
  Tsall := (write_state ns vs Ts).Tsall
  J1all := J1d
  J2all := J2d
  J3all := J3d
  v2avgall := v2d
  v3avgall := v3d
  Phiall := Phid

/-- C2: on the synthetic grid size (2, 3, 4), the read permutation is chosen
from the grid size, with east-west-degenerate grids (lx3 = 1) using a
different permutation than general 3-D grids; a write_state /
loadframe3d_curv round trip succeeds, preserves each per-species array, and
reconstructs the bulk density, velocity and temperatures as the
hand-computed density-weighted sums over the six ion species (exactly, hence
within float32 precision). -/
theorem write_state_roundtrip_234 (ns vs Ts J1d J2d J3d v2d v3d Phid : NDArray ℚ)
    (hns : ns.shape = [7, 2, 3, 4]) (hvs : vs.shape = [7, 2, 3, 4])
    (hTs : Ts.shape = [7, 2, 3, 4]) (hJ1 : J1d.shape = [4, 3, 2]) :
    curv_p4 [2, 3, 4] = [0, 3, 2, 1] ∧
    (∀ l1 l2 : Nat, curv_p4 [l1, l2, 1] = [0, 3, 1, 2]) ∧
    ([0, 3, 1, 2] : List Nat) ≠ [0, 3, 2, 1] ∧
    (loadframe3d_curv [2, 3, 4] (roundtripFile ns vs Ts J1d J2d J3d v2d v3d Phid)).isOk
      = true ∧
    (∀ d, loadframe3d_curv [2, 3, 4] (roundtripFile ns vs Ts J1d J2d J3d v2d v3d Phid)
        = Except.ok d →
      aeq d.ns ns ∧ aeq d.vs vs ∧ aeq d.Ts Ts ∧
      ∀ idx ∈ indicesOf [2, 3, 4],
        d.ne.data idx = ns.data (6 :: idx) ∧
        d.v1.data idx =
          (∑ s ∈ Finset.range 6, ns.data (s :: idx) * vs.data (s :: idx)) /
            ns.data (6 :: idx) ∧
        d.Ti.data idx =
          (∑ s ∈ Finset.range 6, ns.data (s :: idx) * Ts.data (s :: idx)) /
            ns.data (6 :: idx) ∧
        d.Te.data idx = Ts.data (6 :: idx)) := by
  have hp4 : curv_p4 [2, 3, 4] = [0, 3, 2, 1] := rfl
  have hp3 : curv_p3 [2, 3, 4] = [2, 1, 0] := rfl
  have hsh2 : (npTranspose [0, 3, 2, 1] (npTranspose [0, 3, 2, 1] ns)).shape = [7, 2, 3, 4] :=
    npTranspose_0321_shape _ 7 4 3 2 (npTranspose_0321_shape ns 7 2 3 4 hns)
  have hshJ : (npTranspose [2, 1, 0] J1d).shape = [2, 3, 4] :=
    npTranspose_210_shape J1d 4 3 2 hJ1
  have hcond1 :
      ¬((npTranspose [0, 3, 2, 1] (npTranspose [0, 3, 2, 1] ns)).shape.getD 0 0 ≠ LSP ∨
        (npTranspose [0, 3, 2, 1] (npTranspose [0, 3, 2, 1] ns)).shape.drop 1 ≠ [2, 3, 4]) := by
    rw [hsh2]
    decide
  have hcond2 : ¬((npTranspose [2, 1, 0] J1d).shape ≠ [2, 3, 4]) := by
    rw [hshJ]
    decide
  refine ⟨rfl, fun l1 l2 => rfl, by decide, ?_, ?_⟩
  · simp only [loadframe3d_curv, roundtripFile, write_state, hp4, hp3]
    rw [if_neg hcond1, if_neg hcond2]
    rfl
  · intro d hd
    simp only [loadframe3d_curv, roundtripFile, write_state, hp4, hp3] at hd
    rw [if_neg hcond1, if_neg hcond2] at hd
    simp only [Except.ok.injEq] at hd
    subst hd
    have hA : ∀ s i j k : Nat,
        (npTranspose [0, 3, 2, 1] (npTranspose [0, 3, 2, 1] ns)).data [s, i, j, k] =
          ns.data [s, i, j, k] := fun s i j k =>
      npTranspose_0321_0321_data ns 7 2 3 4 hns s i j k
    have hB : ∀ s i j k : Nat,
        (npTranspose [0, 3, 2, 1] (npTranspose [0, 3, 2, 1] vs)).data [s, i, j, k] =
          vs.data [s, i, j, k] := fun s i j k =>
      npTranspose_0321_0321_data vs 7 2 3 4 hvs s i j k
    have hC : ∀ s i j k : Nat,
        (npTranspose [0, 3, 2, 1] (npTranspose [0, 3, 2, 1] Ts)).data [s, i, j, k] =
          Ts.data [s, i, j, k] := fun s i j k =>
      npTranspose_0321_0321_data Ts 7 2 3 4 hTs s i j k
    refine ⟨?_, ?_, ?_, ?_⟩
    · refine aeq_of_pointwise _ _ (by rw [hsh2, hns]) ?_
      intro idx hidx
      have hlen := length_of_mem_indicesOf _ idx hidx
      rw [hsh2] at hlen
      obtain ⟨i, j, k, l, rfl⟩ := list_of_length_four hlen
      exact hA i j k l
    · refine aeq_of_pointwise _ _ ?_ ?_
      · rw [npTranspose_0321_shape _ 7 4 3 2 (npTranspose_0321_shape vs 7 2 3 4 hvs), hvs]
      · intro idx hidx
        have hlen := length_of_mem_indicesOf _ idx hidx
        rw [npTranspose_0321_shape _ 7 4 3 2 (npTranspose_0321_shape vs 7 2 3 4 hvs)] at hlen
        obtain ⟨i, j, k, l, rfl⟩ := list_of_length_four hlen
        exact hB i j k l
    · refine aeq_of_pointwise _ _ ?_ ?_
      · rw [npTranspose_0321_shape _ 7 4 3 2 (npTranspose_0321_shape Ts 7 2 3 4 hTs), hTs]
      · intro idx hidx
        have hlen := length_of_mem_indicesOf _ idx hidx
        rw [npTranspose_0321_shape _ 7 4 3 2 (npTranspose_0321_shape Ts 7 2 3 4 hTs)] at hlen
        obtain ⟨i, j, k, l, rfl⟩ := list_of_length_four hlen
        exact hC i j k l
    · intro idx hidx
      have hlen := length_of_mem_indicesOf _ idx hidx
      obtain ⟨i, j, k, rfl⟩ := list_of_length_three hlen
      refine ⟨hA 6 i j k, ?_, ?_, hC 6 i j k⟩
      · simp only [ediv, sumAxis0, emul, sliceFirst, sliceAt, List.getD_cons_zero]
        simp only [hA, hB]
        rfl
      · simp only [ediv, sumAxis0, emul, sliceFirst, sliceAt, List.getD_cons_zero]
        simp only [hA, hC]
        rfl

/-- Concrete species-resolved density volume on the grid (2, 3, 4). -/
def nsC2 : NDArray ℚ := ⟨[7, 2, 3, 4], fun idx => (idx.sum : ℚ) + 1⟩

/-- Concrete species-resolved velocity volume on the grid (2, 3, 4). -/
def vsC2 : NDArray ℚ := ⟨[7, 2, 3, 4], fun idx => (idx.sum : ℚ) - 3⟩

/-- Concrete species-resolved temperature volume on the grid (2, 3, 4). -/
def TsC2 : NDArray ℚ := ⟨[7, 2, 3, 4], fun idx => (idx.sum : ℚ) + 5⟩

/-- Concrete on-disk 3-D field for the grid (2, 3, 4). -/
def JC2 : NDArray ℚ := ⟨[4, 3, 2], fun idx => (idx.sum : ℚ)⟩

/-- Concrete on-disk potential field for the grid (2, 3, 4). -/
def phiC2 : NDArray ℚ := ⟨[4, 3], fun _ => 0⟩

theorem write_state_roundtrip_234_witness :
    nsC2.shape = [7, 2, 3, 4] ∧
    (loadframe3d_curv [2, 3, 4]
      (roundtripFile nsC2 vsC2 TsC2 JC2 JC2 JC2 JC2 JC2 phiC2)).isOk = true :=
  ⟨rfl,
    (write_state_roundtrip_234 nsC2 vsC2 TsC2 JC2 JC2 JC2 JC2 JC2 phiC2
      rfl rfl rfl rfl).2.2.2.1⟩

/-! ## C4: readgrid transposition and grid-size fallback -/

/-- Mapping a field through the import step of readgrid. -/
theorem readgrid_map_elem (k : String) (a : NDArray ℚ) :
    (if 2 ≤ a.ndim then (k, npTransposeAll a) else (k, a)) =
      (k, if 2 ≤ a.ndim then npTransposeAll a else a) := by
  by_cases hc : 2 ≤ a.ndim <;> simp [hc]

/-- A minimal grid mapping holding only the three length-1 axis arrays. -/
def xgC4 : XG where
  lx := none
  fields := [("x1", ⟨[1], fun _ => 5⟩), ("x2", ⟨[1], fun _ => 6⟩), ("x3", ⟨[1], fun _ => 7⟩)]

/-- The grid-file payload write_grid emits for xgC4. -/
def gfC4 : List (String × NDArray ℚ) :=
  [("x1", ⟨[1], fun _ => 5⟩), ("x2", ⟨[1], fun _ => 6⟩), ("x3", ⟨[1], fun _ => 7⟩)]

/-- C4: every stored grid field of rank at least 2 is imported with its axis
order fully reversed while rank 0 or 1 fields are imported unchanged; with
the companion size file absent, the returned grid size is the element counts
of the x1, x2, x3 entries; and the minimal length-1 grid written by
write_grid and read back with the size file omitted yields grid size
(1, 1, 1). -/
theorem readgrid_transpose_and_fallback :
    (∀ (fields : List (String × NDArray ℚ)) (size : Option SizeFile) (g : GridOut),
      readgrid (some fields) size = Except.ok g →
      ∀ k a, (k, a) ∈ fields →
        (k, if 2 ≤ a.ndim then npTransposeAll a else a) ∈ g.fields) ∧
    (∀ (fields : List (String × NDArray ℚ)) (g : GridOut) (x1a x2a x3a : NDArray ℚ),
      readgrid (some fields) none = Except.ok g →
      lookupArr g.fields "x1" = some x1a → lookupArr g.fields "x2" = some x2a →
      lookupArr g.fields "x3" = some x3a →
      g.lxs = some [x1a.size, x2a.size, x3a.size]) ∧
    (write_grid xgC4 =
      Except.ok [WriteEv.size (lxFromAxes ⟨[1], fun _ => 5⟩ ⟨[1], fun _ => 6⟩ ⟨[1], fun _ => 7⟩),
                 WriteEv.grid gfC4] ∧
     readgrid (some gfC4) none = Except.ok { fields := gfC4, lxs := some [1, 1, 1] }) := by
  have hfields : ∀ (fields : List (String × NDArray ℚ)) (size : Option SizeFile) (g : GridOut),
      readgrid (some fields) size = Except.ok g →
      g.fields = fields.map (fun kv => if 2 ≤ kv.2.ndim then (kv.1, npTransposeAll kv.2) else kv) := by
    intro fields size g h
    simp only [readgrid] at h
    split at h <;> split at h
    all_goals try cases h
    all_goals rfl
  refine ⟨?_, ?_, ?_, ?_⟩
  · intro fields size g h k a hmem
    rw [hfields fields size g h]
    have := List.mem_map_of_mem
      (fun kv => if 2 ≤ kv.2.ndim then (kv.1, npTransposeAll kv.2) else kv) hmem
    simpa only [readgrid_map_elem] using this
  · intro fields g x1a x2a x3a h h1 h2 h3
    simp only [readgrid] at h
    split at h
    all_goals try cases h
    rename_i a1 a2 a3 hm1 hm2 hm3
    have e1 := hm1.symm.trans h1
    have e2 := hm2.symm.trans h2
    have e3 := hm3.symm.trans h3
    injection e1 with e1
    injection e2 with e2
    injection e3 with e3
    subst e1
    subst e2
    subst e3
    rfl
  · rfl
  · rfl

theorem readgrid_transpose_and_fallback_witness :
    readgrid (some gfC4) none = Except.ok { fields := gfC4, lxs := some [1, 1, 1] } ∧
    (("x1", if 2 ≤ (⟨[1], fun _ => (5 : ℚ)⟩ : NDArray ℚ).ndim
        then npTransposeAll ⟨[1], fun _ => 5⟩ else ⟨[1], fun _ => 5⟩) ∈
      ({ fields := gfC4, lxs := some [1, 1, 1] } : GridOut).fields) :=
  ⟨rfl,
    readgrid_transpose_and_fallback.1 gfC4 none { fields := gfC4, lxs := some [1, 1, 1] }
      rfl "x1" ⟨[1], fun _ => 5⟩ (by simp [gfC4])⟩

/-! ## C6: write_grid ordering, transposition and skipping -/

/-- C6: write_grid succeeds whenever the mapping already holds an lx entry
regardless of which fields are absent; any successful write emits exactly
the size-descriptor file followed by the grid file; when the mapping has no
lx entry the size triple is computed from the x1, x2, x3 axis arrays; and
the grid file holds exactly the recognized present fields, rank-at-least-2
fields transposed and rank 0 or 1 fields as they are, recognized absent
fields being skipped without an error. -/
theorem write_grid_spec :
    (∀ (xg : XG) (a : NDArray Nat), xg.lx = some a → (write_grid xg).isOk = true) ∧
    (∀ (xg : XG) (evs : List WriteEv), write_grid xg = Except.ok evs →
      ∃ lx gf, evs = [WriteEv.size lx, WriteEv.grid gf]) ∧
    (∀ (xg : XG) (a1 a2 a3 : NDArray ℚ),
      xg.lx = none →
      lookupArr xg.fields "x1" = some a1 → lookupArr xg.fields "x2" = some a2 →
      lookupArr xg.fields "x3" = some a3 →
      write_grid xg =
        Except.ok [WriteEv.size (lxFromAxes a1 a2 a3),
          WriteEv.grid (grid_keys.filterMap (fun k =>
            (lookupArr xg.fields k).map (fun a =>
              (k, if 2 ≤ a.ndim then npTransposeAll a else a))))]) ∧
    (∀ (xg : XG) (lx : NDArray Nat) (gf : List (String × NDArray ℚ)),
      write_grid xg = Except.ok [WriteEv.size lx, WriteEv.grid gf] →
      (∀ k a, k ∈ grid_keys → lookupArr xg.fields k = some a →
        (k, if 2 ≤ a.ndim then npTransposeAll a else a) ∈ gf) ∧
      (∀ k, k ∈ grid_keys → lookupArr xg.fields k = none → ∀ a, (k, a) ∉ gf)) := by
  have hpayload : ∀ (xg : XG) (lx : NDArray Nat) (gf : List (String × NDArray ℚ)),
      write_grid xg = Except.ok [WriteEv.size lx, WriteEv.grid gf] →
      gf = grid_keys.filterMap (fun k =>
        (lookupArr xg.fields k).map (fun a =>
          (k, if 2 ≤ a.ndim then npTransposeAll a else a))) := by
    intro xg lx gf h
    simp only [write_grid] at h
    split at h
    · cases h
    · simp only [Except.ok.injEq, List.cons.injEq, and_true,
        WriteEv.size.injEq, WriteEv.grid.injEq] at h
      exact h.2.symm
  refine ⟨?_, ?_, ?_, ?_⟩
  · intro xg a hlx
    simp only [write_grid, hlx]
    rfl
  · intro xg evs h
    simp only [write_grid] at h
    split at h
    · cases h
    · simp only [Except.ok.injEq] at h
      exact ⟨_, _, h.symm⟩
  · intro xg a1 a2 a3 hlx h1 h2 h3
    simp only [write_grid, hlx, h1, h2, h3]
  · intro xg lx gf h
    rw [hpayload xg lx gf h]
    constructor
    · intro k a hk ha
      rw [List.mem_filterMap]
      exact ⟨k, hk, by rw [ha]; rfl⟩
    · intro k hk hnone a hmem
      rw [List.mem_filterMap] at hmem
      obtain ⟨k2, _, hf⟩ := hmem
      rcases hlk : lookupArr xg.fields k2 with _ | b
      · rw [hlk] at hf
        cases hf
      · rw [hlk] at hf
        have hf2 : (k2, if 2 ≤ b.ndim then npTransposeAll b else b) = (k, a) :=
          Option.some.inj hf
        have hkk : k2 = k := congrArg Prod.fst hf2
        subst hkk
        rw [hnone] at hlk
        cases hlk

/-- A grid mapping with an explicit lx entry and no fields at all. -/
def xgC6 : XG where
  lx := some ⟨[3, 1], fun _ => 1⟩
  fields := []

theorem write_grid_spec_witness :
    xgC6.lx = some ⟨[3, 1], fun _ => 1⟩ ∧ (write_grid xgC6).isOk = true :=
  ⟨rfl, write_grid_spec.1 xgC6 ⟨[3, 1], fun _ => 1⟩ rfl⟩

/-! ## C8: get_simsize legacy-key priority -/

/-- C8: get_simsize reads the whole triple from lxs first, then from lx,
then assembles it from the per-axis keys lx1, lx2, lx3, taking either the
scalar or the squeezed singleton-array encoding of each axis count, and
raises a KeyError when none of the recognized keys is present. -/
theorem get_simsize_key_priority :
    (∀ (f : SizeFile) (a : NDArray Nat), f.lxs = some a →
      get_simsize f = Except.ok a.flat) ∧
    (∀ (f : SizeFile) (a : NDArray Nat), f.lxs = none → f.lx = some a →
      get_simsize f = Except.ok a.flat) ∧
    (∀ (f : SizeFile) (a1 a2 a3 : NDArray Nat), f.lxs = none → f.lx = none →
      f.lx1 = some a1 → f.lx2 = some a2 → f.lx3 = some a3 →
      get_simsize f = Except.ok (if 0 < a1.ndim
        then [a1.flat.getD 0 0, a2.flat.getD 0 0, a3.flat.getD 0 0]
        else [a1.data [], a2.data [], a3.data []])) ∧
    (∀ f : SizeFile, f.lxs = none → f.lx = none → f.lx1 = none →
      get_simsize f = Except.error "KeyError: could not find /lxs, /lx or /lx1") := by
  refine ⟨?_, ?_, ?_, ?_⟩
  · intro f a h
    simp only [get_simsize, h]
  · intro f a h1 h2
    simp only [get_simsize, h1, h2]
  · intro f a1 a2 a3 h1 h2 h3 h4 h5
    simp only [get_simsize, h1, h2, h3, h4, h5]
    split <;> rfl
  · intro f h1 h2 h3
    simp only [get_simsize, h1, h2, h3]

/-- A size file carrying only the per-axis keys, as singleton arrays. -/
def sfC8 : SizeFile where
  lxs := none
  lx := none
  lx1 := some ⟨[1], fun _ => 4⟩
  lx2 := some ⟨[1], fun _ => 5⟩
  lx3 := some ⟨[1], fun _ => 6⟩

theorem get_simsize_key_priority_witness :
    get_simsize sfC8 = Except.ok [4, 5, 6] :=
  (get_simsize_key_priority.2.2.1 sfC8 ⟨[1], fun _ => 4⟩ ⟨[1], fun _ => 5⟩
    ⟨[1], fun _ => 6⟩ rfl rfl rfl rfl rfl).trans (by rfl)

/-! ## C9: the Efield write/read pair is not the identity on 2-D fields -/

/-- A concrete Efield series whose interior field is a non-square 2-D plane
per frame, so that the transpose is visible in the shape. -/
def efC9 : EfieldSeries where
  mlon := ⟨[2], fun _ => 0⟩
  mlat := ⟨[3], fun _ => 0⟩
  flagdirich := ⟨[1], fun _ => 1⟩
  Exit := ⟨[1, 2, 3], fun idx => (idx.getD 1 0 : ℚ)⟩
  Eyit := ⟨[1, 2, 3], fun _ => 0⟩
  Vminx1it := ⟨[1, 2, 3], fun _ => 0⟩
  Vmaxx1it := ⟨[1, 2, 3], fun _ => 0⟩
  Vminx2ist := ⟨[1, 2], fun _ => 0⟩
  Vmaxx2ist := ⟨[1, 2], fun _ => 0⟩
  Vminx3ist := ⟨[1, 3], fun _ => 0⟩
  Vmaxx3ist := ⟨[1, 3], fun _ => 0⟩

/-- C9: reading back a written Efield frame yields, for each of the four 2-D
fields, the transpose of the per-frame array that was written, because
write_Efield transposes them and read_Efield does not undo it; the four 1-D
edge profiles come back unchanged; and on a concrete non-square series the
round trip is therefore not the identity. -/
theorem Efield_readback_transposed :
    (∀ (E : EfieldSeries) (i : Nat),
      (read_Efield (write_Efield_grid E) (write_Efield_frame E i)).Exit =
        npTransposeAll (sliceAt E.Exit i) ∧
      (read_Efield (write_Efield_grid E) (write_Efield_frame E i)).Eyit =
        npTransposeAll (sliceAt E.Eyit i) ∧
      (read_Efield (write_Efield_grid E) (write_Efield_frame E i)).Vminx1it =
        npTransposeAll (sliceAt E.Vminx1it i) ∧
      (read_Efield (write_Efield_grid E) (write_Efield_frame E i)).Vmaxx1it =
        npTransposeAll (sliceAt E.Vmaxx1it i) ∧
      (read_Efield (write_Efield_grid E) (write_Efield_frame E i)).Vminx2ist =
        sliceAt E.Vminx2ist i ∧
      (read_Efield (write_Efield_grid E) (write_Efield_frame E i)).Vmaxx2ist =
        sliceAt E.Vmaxx2ist i ∧
      (read_Efield (write_Efield_grid E) (write_Efield_frame E i)).Vminx3ist =
        sliceAt E.Vminx3ist i ∧
      (read_Efield (write_Efield_grid E) (write_Efield_frame E i)).Vmaxx3ist =
        sliceAt E.Vmaxx3ist i) ∧
    ¬ aeq (read_Efield (write_Efield_grid efC9) (write_Efield_frame efC9 0)).Exit
        (sliceAt efC9.Exit 0) := by
  refine ⟨fun E i => ⟨rfl, rfl, rfl, rfl, rfl, rfl, rfl, rfl⟩, ?_⟩
  intro h
  exact absurd h.1 (by decide)

theorem Efield_readback_transposed_witness :
    (read_Efield (write_Efield_grid efC9) (write_Efield_frame efC9 1)).Exit =
      npTransposeAll (sliceAt efC9.Exit 1) :=
  (Efield_readback_transposed.1 efC9 1).1

/-! ## C10: a missing grid never raises at the public readers -/

/-- C10: readgrid returns the empty mapping when the grid file is not
present, and read.grid returns the empty mapping when no simgrid file can be
resolved in the search locations, instead of raising a NotFound error. -/
theorem missing_grid_is_empty :
    (∀ size : Option SizeFile, readgrid none size = Except.ok { fields := [], lxs := none }) ∧
    (∀ (fs : List String) (gridStore : String → Option (List (String × NDArray ℚ)))
        (sizeStore : String → Option SizeFile) (path : String),
      (∀ c ∈ stemCandidates path "simgrid" [".h5", ".nc"], c.1 ∉ fs) →
      read_grid fs gridStore sizeStore path = Except.ok { fields := [], lxs := none }) := by
  refine ⟨fun _ => rfl, ?_⟩
  intro fs gridStore sizeStore path h
  have hfind : (stemCandidates path "simgrid" [".h5", ".nc"]).find?
      (fun c => fs.contains c.1) = none := by
    rw [List.find?_eq_none]
    intro x hx
    simp [h x hx]
  simp only [read_grid, get_grid_filename, find_stem_dir, hfind]
  rfl

theorem missing_grid_is_empty_witness :
    read_grid [] (fun _ => none) (fun _ => none) "sim" =
      Except.ok { fields := [], lxs := none } :=
  missing_grid_is_empty.2 [] (fun _ => none) (fun _ => none) "sim" (by decide)

/-! ## C5: timestamp-keyed frame lookup -/

theorem findSome?_singleton {α β : Type} (f : α → Option β) (x : α) :
    List.findSome? f [x] = f x := by
  cases h : f x <;> simp [List.findSome?, h]

theorem closestEntry_eq_none (t : ReqTime) :
    ∀ l : List FrameEntry, closestEntry t l = none → l = [] := by
  intro l h
  cases l with
  | nil => rfl
  | cons e rest =>
    exfalso
    rcases hr : closestEntry t rest with _ | c
    · simp only [closestEntry, hr] at h
      cases h
    · simp only [closestEntry, hr] at h
      split at h <;> cases h

theorem closestEntry_mem (t : ReqTime) :
    ∀ (l : List FrameEntry) (b : FrameEntry), closestEntry t l = some b → b ∈ l := by
  intro l
  induction l with
  | nil => intro b h; cases h
  | cons e rest ih =>
    intro b h
    rcases hr : closestEntry t rest with _ | c
    · simp only [closestEntry, hr] at h
      cases h
      exact List.mem_cons_self e rest
    · simp only [closestEntry, hr] at h
      split at h <;> cases h
      · exact List.mem_cons_of_mem e (ih _ hr)
      · exact List.mem_cons_self e rest

theorem closestEntry_min (t : ReqTime) :
    ∀ (l : List FrameEntry) (b : FrameEntry), closestEntry t l = some b →
      ∀ c ∈ l, frameDist t b ≤ frameDist t c := by
  intro l
  induction l with
  | nil => intro b h; cases h
  | cons e rest ih =>
    intro b h c hc
    rcases hr : closestEntry t rest with _ | b2
    · simp only [closestEntry, hr] at h
      cases h
      rw [closestEntry_eq_none t rest hr] at hc
      rcases List.mem_cons.mp hc with rfl | hc2
      · exact le_refl _
      · cases hc2
    · simp only [closestEntry, hr] at h
      split at h <;> cases h
      · rename_i hcmp
        rcases List.mem_cons.mp hc with rfl | hc2
        · exact le_of_lt hcmp
        · exact ih _ hr c hc2
      · rename_i hcmp
        rcases List.mem_cons.mp hc with rfl | hc2
        · exact le_refl _
        · exact le_trans (not_lt.mp hcmp) (ih _ hr c hc2)

/-- C5: with a fixed file format, the resolver first builds the exact
expected filename and returns it if that file exists; otherwise it globs
the files sharing the date portion of the stem and returns the candidate
closest to the requested time provided the offset is within the one-second
tolerance; when no candidate qualifies it raises a NotFound error carrying
the attempted stem if required, and returns nothing silently if not. -/
theorem frame_lookup_spec (dir : List FrameEntry) (t : ReqTime) (fmt : String) (req : Bool) :
    (exactEntry t ("." ++ fmt) ∈ dir →
      frame dir t (some fmt) req = Except.ok (some (exactEntry t ("." ++ fmt)))) ∧
    (exactEntry t ("." ++ fmt) ∉ dir →
      ∀ c ∈ frameCands dir t ("." ++ fmt), frameDist t c ≤ MAX_OFFSET_USEC →
        ∃ b, frame dir t (some fmt) req = Except.ok (some b) ∧
          b ∈ frameCands dir t ("." ++ fmt) ∧
          frameDist t b ≤ MAX_OFFSET_USEC ∧
          ∀ c2 ∈ frameCands dir t ("." ++ fmt), frameDist t b ≤ frameDist t c2) ∧
    (exactEntry t ("." ++ fmt) ∉ dir →
      (∀ c ∈ frameCands dir t ("." ++ fmt), MAX_OFFSET_USEC < frameDist t c) →
      frame dir t (some fmt) req =
        if req then Except.error (stemOf t ++ " not found in simdir")
        else Except.ok none) := by
  refine ⟨?_, ?_, ?_⟩
  · intro hmem
    have he : exactFor dir t ("." ++ fmt) = some (exactEntry t ("." ++ fmt)) := by
      simp [exactFor, hmem]
    simp only [frame, findSome?_singleton, he]
  · intro hc c hcmem hcle
    rcases hcl : closestEntry t (frameCands dir t ("." ++ fmt)) with _ | b
    · rw [closestEntry_eq_none t _ hcl] at hcmem
      cases hcmem
    · have hbmem := closestEntry_mem t _ b hcl
      have hbmin := closestEntry_min t _ b hcl
      have hble : frameDist t b ≤ MAX_OFFSET_USEC := le_trans (hbmin c hcmem) hcle
      refine ⟨b, ?_, hbmem, hble, hbmin⟩
      have he : exactFor dir t ("." ++ fmt) = none := by
        simp [exactFor, hc]
      have hf : fallbackFor dir t ("." ++ fmt) = some b := by
        simp only [fallbackFor, hcl]
        rw [if_pos hble]
      simp only [frame, findSome?_singleton, he, hf]
  · intro hc hfar
    have he : exactFor dir t ("." ++ fmt) = none := by
      simp [exactFor, hc]
    have hf : fallbackFor dir t ("." ++ fmt) = none := by
      rcases hcl : closestEntry t (frameCands dir t ("." ++ fmt)) with _ | b
      · simp [fallbackFor, hcl]
      · have hbmem := closestEntry_mem t _ b hcl
        simp [fallbackFor, hcl, not_le.mpr (hfar b hbmem)]
    simp only [frame, findSome?_singleton, he, hf]

/-- A directory holding the single frame file 20130220_32400.500000.h5,
time of day 09:00:00.500000. -/
def dirC5 : List FrameEntry := [⟨20130220, 32400, 500000, ".h5"⟩]

/-- The requested time 09:00:00.000000 of the same date. -/
def t1C5 : ReqTime := ⟨20130220, 32400, 0⟩

/-- The requested time 09:00:02.000000 of the same date. -/
def t2C5 : ReqTime := ⟨20130220, 32402, 0⟩

theorem frame_lookup_spec_witness :
    exactEntry t1C5 ("." ++ "h5") ∉ dirC5 ∧
    (∃ b, frame dirC5 t1C5 (some "h5") false = Except.ok (some b) ∧
      b ∈ frameCands dirC5 t1C5 ("." ++ "h5") ∧
      frameDist t1C5 b ≤ MAX_OFFSET_USEC ∧
      ∀ c2 ∈ frameCands dirC5 t1C5 ("." ++ "h5"), frameDist t1C5 b ≤ frameDist t1C5 c2) ∧
    frame dirC5 t2C5 (some "h5") true =
      (if true then Except.error (stemOf t2C5 ++ " not found in simdir")
       else Except.ok none) :=
  ⟨by decide,
   (frame_lookup_spec dirC5 t1C5 "h5" false).2.1 (by decide)
     ⟨20130220, 32400, 500000, ".h5"⟩ (by decide) (by decide),
   (frame_lookup_spec dirC5 t2C5 "h5" true).2.2 (by decide) (by decide)⟩

/-! ## C7: the grid comparator -/

/-- The predicate counted by compare_grid: the reference entry is an array
whose candidate counterpart fails the tolerance test. -/
def toleranceFailure (new : List (String × GVal)) (rtol atol : ℚ)
    (kv : String × GVal) : Bool :=
  match kv.2, lookupG new kv.1 with
  | GVal.arr a, some (GVal.arr b) => !(allcloseB a b rtol atol)
  | _, _ => false

theorem lookupG_of_nodup :
    ∀ (g : List (String × GVal)), (g.map Prod.fst).Nodup →
      ∀ (k : String) (v : GVal), (k, v) ∈ g → lookupG g k = some v := by
  intro g
  induction g with
  | nil => intro _ k v hmem; cases hmem
  | cons hd rest ih =>
    intro hn k v hmem
    rw [List.map_cons, List.nodup_cons] at hn
    rcases List.mem_cons.mp hmem with heq | hmem2
    · cases heq
      simp [lookupG, List.find?]
    · have hne : (hd.1 == k) = false := by
        rw [beq_eq_false_iff_ne]
        intro hkk
        exact hn.1 (hkk ▸ List.mem_map_of_mem Prod.fst hmem2)
      unfold lookupG at ih ⊢
      simp only [List.find?, hne]
      exact ih hn.2 k v hmem2

theorem allcloseB_self (a : NDArray ℚ) (rtol atol : ℚ) (hr : 0 ≤ rtol) (ha : 0 ≤ atol) :
    allcloseB a a rtol atol = true := by
  unfold allcloseB
  rw [List.all_eq_true]
  intro idx _
  rw [decide_eq_true_eq, sub_self, abs_zero]
  positivity

/-- The count computed by the comparator loop, assuming every array entry of
the reference has an equal-shaped array counterpart in the candidate. -/
theorem compare_fields_count (new : List (String × GVal)) (rtol atol : ℚ) :
    ∀ ref : List (String × GVal),
      (∀ k a, (k, GVal.arr a) ∈ ref →
        ∃ b, lookupG new k = some (GVal.arr b) ∧ b.shape = a.shape) →
      compare_fields new rtol atol ref =
        Except.ok (ref.countP (toleranceFailure new rtol atol)) := by
  intro ref
  induction ref with
  | nil => intro _; rfl
  | cons kv rest ih =>
    intro H
    have Hrest : ∀ k a, (k, GVal.arr a) ∈ rest →
        ∃ b, lookupG new k = some (GVal.arr b) ∧ b.shape = a.shape :=
      fun k a hmem => H k a (List.mem_cons_of_mem kv hmem)
    rcases kv with ⟨k, v⟩
    cases v with
    | other =>
      simp only [compare_fields]
      rw [ih Hrest, List.countP_cons]
      simp [toleranceFailure]
    | arr a =>
      obtain ⟨b, hlk, hsh⟩ := H k a (List.mem_cons_self _ _)
      simp only [compare_fields, hlk]
      rw [if_neg (fun hne => hne hsh.symm), ih Hrest, List.countP_cons]
      have hp : toleranceFailure new rtol atol (k, GVal.arr a) = !(allcloseB a b rtol atol) := by
        simp [toleranceFailure, hlk]
      rw [hp]
      by_cases hac : allcloseB a b rtol atol = true
      · simp [hac]
      · rw [Bool.not_eq_true] at hac
        simp [hac, Nat.add_comm]

/-- C7: the comparator returns 0 on two identical grids (tolerances being
nonnegative); in general, whenever every reference array field has an
equal-shaped candidate counterpart, it returns exactly the number of fields
failing the tolerance test (so perturbing exactly one field beyond tolerance
returns 1); and a reference array field whose candidate counterpart has a
different shape makes it raise instead of counting. -/
theorem compare_grid_counts :
    (∀ (ref : List (String × GVal)) (rtol atol : ℚ),
      0 ≤ rtol → 0 ≤ atol → (ref.map Prod.fst).Nodup →
      compare_grid ref ref rtol atol = Except.ok 0) ∧
    (∀ (ref new : List (String × GVal)) (rtol atol : ℚ),
      (∀ k a, (k, GVal.arr a) ∈ ref →
        ∃ b, lookupG new k = some (GVal.arr b) ∧ b.shape = a.shape) →
      compare_grid ref new rtol atol =
        Except.ok (ref.countP (toleranceFailure new rtol atol))) ∧
    (∀ (ref new : List (String × GVal)) (rtol atol : ℚ) (k : String) (a b : NDArray ℚ),
      (k, GVal.arr a) ∈ ref → lookupG new k = some (GVal.arr b) → a.shape ≠ b.shape →
      ∃ e, compare_grid ref new rtol atol = Except.error e) := by
  have herr : ∀ (new : List (String × GVal)) (rtol atol : ℚ)
      (ref : List (String × GVal)) (k : String) (a b : NDArray ℚ),
      (k, GVal.arr a) ∈ ref → lookupG new k = some (GVal.arr b) → a.shape ≠ b.shape →
      ∃ e, compare_fields new rtol atol ref = Except.error e := by
    intro new rtol atol ref
    induction ref with
    | nil => intro k a b hmem _ _; cases hmem
    | cons kv rest ih =>
      intro k a b hmem hlk hsh
      rcases List.mem_cons.mp hmem with heq | hmem2
      · cases heq
        simp only [compare_fields, hlk]
        rw [if_pos hsh]
        exact ⟨_, rfl⟩
      · rcases kv with ⟨k0, v0⟩
        cases v0 with
        | other =>
          simp only [compare_fields]
          exact ih k a b hmem2 hlk hsh
        | arr a0 =>
          rcases hlk0 : lookupG new k0 with _ | gv
          · simp only [compare_fields, hlk0]
            exact ⟨_, rfl⟩
          · cases gv with
            | other =>
              simp only [compare_fields, hlk0]
              exact ⟨_, rfl⟩
            | arr b0 =>
              simp only [compare_fields, hlk0]
              by_cases hsh0 : a0.shape = b0.shape
              · rw [if_neg (fun hne => hne hsh0)]
                obtain ⟨e, he⟩ := ih k a b hmem2 hlk hsh
                rw [he]
                exact ⟨e, rfl⟩
              · rw [if_pos hsh0]
                exact ⟨_, rfl⟩
  refine ⟨?_, ?_, ?_⟩
  · intro ref rtol atol hr ha hn
    unfold compare_grid
    rw [compare_fields_count ref rtol atol ref
      (fun k a hmem => ⟨a, lookupG_of_nodup ref hn k (GVal.arr a) hmem, rfl⟩)]
    have hz : ref.countP (toleranceFailure ref rtol atol) = 0 := by
      rw [List.countP_eq_zero]
      intro kv hkv
      rcases kv with ⟨k, v⟩
      cases v with
      | other => simp [toleranceFailure]
      | arr a =>
        have hlk := lookupG_of_nodup ref hn k (GVal.arr a) hkv
        simp [toleranceFailure, hlk, allcloseB_self a rtol atol hr ha]
    rw [hz]
  · intro ref new rtol atol H
    exact compare_fields_count new rtol atol ref H
  · intro ref new rtol atol k a b hmem hlk hsh
    exact herr new rtol atol ref k a b hmem hlk hsh

/-- A reference grid with a single array field of one element. -/
def refC7 : List (String × GVal) := [("alt", GVal.arr ⟨[1], fun _ => 0⟩)]

/-- A candidate grid whose single field has a different shape. -/
def newC7 : List (String × GVal) := [("alt", GVal.arr ⟨[2], fun _ => 0⟩)]

theorem compare_grid_counts_witness :
    compare_grid refC7 refC7 0 1 = Except.ok 0 ∧
    (∃ e, compare_grid refC7 newC7 0 1 = Except.error e) :=
  ⟨compare_grid_counts.1 refC7 0 1 (by norm_num) (by norm_num) (by decide),
   compare_grid_counts.2.2 refC7 newC7 0 1 "alt" ⟨[1], fun _ => 0⟩ ⟨[2], fun _ => 0⟩
     (by simp [refC7]) rfl (by decide)⟩

end PyGemini
